import Mathlib

/-!
Verification development for the YouTube tag-analysis / playlist-creation
pipeline implemented in src/main.py (class YouTubeWorker).

The pipeline code is shallowly embedded below:
  - pyLower models Python str.lower (ASCII case folding of the characters).
  - getAllVideoIds embeds YouTubeWorker._get_all_video_ids: the paged
    collection endpoint is modelled by the ordered list of responses the
    service would return; each response is a page (item ids plus optional
    continuation token) or a raised exception.
  - aggregateTags embeds the tag-grouping block of run_analysis
    (Counter over the lowered raw tag stream, the casing map built from the
    reversed raw stream, and the stable descending sort of sorted(...)).
  - authenticate embeds YouTubeWorker.authenticate over a record describing
    the persisted token file, the stored credential flags and the
    refresh/interactive-flow outcomes.
  - run_analysis / create_playlist embed the two worker entry points; the
    try/except/finally boundary is reflected in the produced output record
    (list of emitted progress percentages, list of emitted error messages,
    the tags_ready / playlist_created payloads, and the number of finished
    emissions).  Progress messages are elided: only the integer percentage
    of each progress emission is kept, since no checked property concerns
    the message text.  Float division in the progress formulas is modelled
    by exact natural division (floor), which agrees with CPython on all
    inputs used below.
-/

set_option autoImplicit false

namespace YT

/-- Model of the Python str.lower method used on tags (ASCII case folding,
character by character). -/
def pyLower (s : String) : String := ⟨s.data.map Char.toLower⟩

/-- One response of the paged playlistItems endpoint: the video ids of the
page and the optional nextPageToken. -/
structure Page where
  ids : List String
  nextPageToken : Option String
deriving DecidableEq, Repr

/-- Python truthiness of the optional nextPageToken: None and the empty
string are falsy. -/
def truthyToken : Option String → Bool
  | none => false
  | some s => s != ""

/-- Embedding of YouTubeWorker._get_all_video_ids (src/main.py lines
165-172).  The service is modelled by the ordered list of responses it
would give to successive page requests; an Except.error response models a
raised exception.  Returns the accumulated ids together with the number of
page requests issued.  The loop is do-while: it always issues at least one
request, appends each page in response order without deduplication, and
stops at the first page whose token is falsy. -/
def getAllVideoIds : List (Except String Page) → Except String (List String × Nat)
  | [] => .error "playlistItems request failed"
  | .error e :: _ => .error e
  | .ok p :: rest =>
    if truthyToken p.nextPageToken then
      match getAllVideoIds rest with
      | .error e => .error e
      | .ok (ids, n) => .ok (p.ids ++ ids, n + 1)
    else .ok (p.ids, 1)

/-- One item of a videos().list response: the video id and the snippet tag
list, which may be absent (item.snippet.get with default []). -/
structure VideoItem where
  id : String
  tags : Option (List String)
deriving DecidableEq, Repr

/-- item.snippet.get applied to the tags key with default empty list. -/
def rawTags (v : VideoItem) : List String := v.tags.getD []

/-- all_tags_raw accumulated over the fetched videos: each item extends the
stream with its raw tag list, in fetch order (run_analysis line 114). -/
def allTagsRaw : List VideoItem → List String
  | [] => []
  | v :: vs => rawTags v ++ allTagsRaw vs

/-- Helper for the key order of a Python Counter/dict: keys in order of
first insertion, given the set of keys already seen. -/
def dedupFirstAux (seen : List String) : List String → List String
  | [] => []
  | x :: xs => if seen.contains x then dedupFirstAux seen xs else x :: dedupFirstAux (x :: seen) xs

/-- Keys of Counter(stream) in iteration order: first-occurrence order of
the elements of the stream. -/
def dedupFirst (l : List String) : List String := dedupFirstAux [] l

/-- Python dict assignment d[k] = v: the first entry with the key is
replaced in place, otherwise the pair is appended (insertion order is
preserved). -/
def dictInsert : List (String × String) → String → String → List (String × String)
  | [], k, v => [(k, v)]
  | (a, b) :: ms, k, v => if a == k then (k, v) :: ms else (a, b) :: dictInsert ms k v

/-- Embedding of the dict comprehension of run_analysis line 122:
original_casing_map is built by iterating the reversed raw tag stream and
assigning tag.lower to the tag, so later assignments (earlier stream
positions) overwrite earlier ones. -/
def buildCasingMap (raw : List String) : List (String × String) :=
  raw.reverse.foldl (fun m t => dictInsert m (pyLower t) t) []

/-- Embedding of run_analysis lines 120-127: the (display form, count)
pairs produced from Counter(tag.lower for tag in all_tags_raw).items(), in
Counter iteration order, with the display form looked up in the casing map
(defaulting to the lowered key itself). -/
def processedTags (raw : List String) : List (String × Nat) :=
  (dedupFirst (raw.map pyLower)).map
    (fun k => (((buildCasingMap raw).lookup k).getD k, (raw.map pyLower).count k))

/-- Insertion step of a stable descending sort on the count component: the
inserted element precedes every later element with a count less than or
equal to its own. -/
def insertDesc (x : String × Nat) : List (String × Nat) → List (String × Nat)
  | [] => [x]
  | y :: ys => if y.2 ≤ x.2 then x :: y :: ys else y :: insertDesc x ys

/-- Stable descending-by-count sort, modelling Python
sorted(processed_tags, key count, reverse True) of run_analysis line 129.
Python sorted is stable and reverse keeps ties in original order; any
stable sort with the same key produces the identical list, so this
insertion sort is an exact model. -/
def sortDesc : List (String × Nat) → List (String × Nat)
  | [] => []
  | x :: xs => insertDesc x (sortDesc xs)

/-- The complete tag aggregation of run_analysis lines 119-129 applied to
the raw tag stream. -/
def aggregateTags (raw : List String) : List (String × Nat) :=
  sortDesc (processedTags raw)

/-- Tag aggregation applied to a list of fetched videos (the raw tag
stream is the concatenation of the raw tag lists in fetch order). -/
def aggregate (vids : List VideoItem) : List (String × Nat) :=
  aggregateTags (allTagsRaw vids)

/-- One entry of self.all_videos as stored at run_analysis line 116: the
video id and the lower-cased tag list. -/
structure StoredVideo where
  id : String
  tags : List String
deriving DecidableEq, Repr

/-- run_analysis line 116: the stored record of one fetched video. -/
def storeVideo (v : VideoItem) : StoredVideo :=
  ⟨v.id, (rawTags v).map pyLower⟩

/-- Flags of the credential object loaded from the persisted token file
(google Credentials: valid, expired, refresh_token present). -/
structure CredsInfo where
  valid : Bool
  expired : Bool
  refreshToken : Bool
deriving DecidableEq, Repr

/-- Environment of one call to YouTubeWorker.authenticate: the state of
the two files and the outcomes the external auth library would produce. -/
structure AuthEnv where
  tokenFileExists : Bool
  stored : CredsInfo
  refreshOk : Bool
  refreshErrMsg : String
  secretsFileExists : Bool
  flowResult : Except String Unit
deriving Repr

/-- Observable outcome of YouTubeWorker.authenticate: the returned boolean,
the error messages emitted on the error channel, whether the persisted
token file was deleted or written, and whether self.credentials was set. -/
structure AuthOut where
  result : Bool
  errors : List String
  tokenFileDeleted : Bool
  tokenFileWritten : Bool
  credentialsSet : Bool
deriving DecidableEq, Repr

/-- The interactive branch of authenticate (src/main.py lines 159-161):
missing client_secrets.json emits CLIENT_SECRETS_MISSING and returns False;
otherwise the browser flow runs, and on success the token is persisted and
the credential is installed.  A raise from the flow propagates. -/
def interactiveFlow (env : AuthEnv) : Except String AuthOut :=
  if env.secretsFileExists then
    match env.flowResult with
    | .error e => .error e
    | .ok _ => .ok ⟨true, [], false, true, true⟩
  else .ok ⟨false, ["CLIENT_SECRETS_MISSING"], false, false, false⟩

/-- Embedding of YouTubeWorker.authenticate (src/main.py lines 150-164).
An Except.error result models an exception escaping authenticate into the
callers try block. -/
def authenticate (env : AuthEnv) : Except String AuthOut :=
  if env.tokenFileExists then
    if env.stored.valid then .ok ⟨true, [], false, false, true⟩
    else if env.stored.expired && env.stored.refreshToken then
      if env.refreshOk then .ok ⟨true, [], false, true, true⟩
      else .ok ⟨false, ["Token refresh failed: " ++ env.refreshErrMsg], true, false, false⟩
    else interactiveFlow env
  else interactiveFlow env

/-- The per-batch progress percentage of run_analysis line 117:
40 + int(((i + 50) / len(video_ids)) * 50), with the float division and
int truncation modelled by exact natural (floor) division. -/
def analysisBatchProgress (n i : Nat) : Nat := 40 + (i + 50) * 50 / n

/-- Embedding of the batch loop of run_analysis lines 110-117 over the
remaining video ids.  One metadata response is consumed per non-empty
chunk of at most 50 ids; n is len(video_ids) and i the running range
index.  Returns the accumulated raw tag stream, the stored video records
and the emitted per-batch progress percentages. -/
def processChunks (n : Nat) :
    Nat → List String → List (Except String (List VideoItem)) →
    Except String (List String × List StoredVideo × List Nat)
  | _, [], _ => .ok ([], [], [])
  | _, _ :: _, [] => .error "videos request failed"
  | i, ids@(_ :: _), r :: rest =>
    match r with
    | .error e => .error e
    | .ok items =>
      match processChunks n (i + 50) (ids.drop 50) rest with
      | .error e => .error e
      | .ok (t, vstore, pvs) =>
        .ok (allTagsRaw items ++ t, items.map storeVideo ++ vstore,
             analysisBatchProgress n i :: pvs)

/-- Environment of one run_analysis call: the authentication environment
and the responses of the three remote endpoints, in request order. -/
structure AnalysisEnv where
  authEnv : AuthEnv
  channelResult : Except String String
  pageResponses : List (Except String Page)
  videoResponses : List (Except String (List VideoItem))

/-- Observable outcome of run_analysis: the emitted progress percentages in
order, the emitted error messages, the tags_ready payload, and the number
of finished emissions. -/
structure AnalysisOut where
  progressVals : List Nat
  errors : List String
  tagsReady : Option (List (String × Nat))
  finished : Nat
deriving DecidableEq, Repr

/-- The body of run_analysis after a successful authenticate (src/main.py
lines 103-130), ending in the corresponding emissions.  Each raised
exception is converted by the except clause into one
Analysis failed message; the finally clause always emits finished once. -/
def analysisMain (env : AnalysisEnv) : AnalysisOut :=
  match env.channelResult with
  | .error e => ⟨[0, 10], ["Analysis failed: " ++ e], none, 1⟩
  | .ok _uploadsId =>
    match getAllVideoIds env.pageResponses with
    | .error e => ⟨[0, 10, 20], ["Analysis failed: " ++ e], none, 1⟩
    | .ok (videoIds, _nreq) =>
      match processChunks videoIds.length 0 videoIds env.videoResponses with
      | .error e => ⟨[0, 10, 20, 40], ["Analysis failed: " ++ e], none, 1⟩
      | .ok (raw, _stored, pvs) =>
        ⟨[0, 10, 20, 40] ++ pvs ++ [100], [], some (aggregateTags raw), 1⟩

/-- Embedding of YouTubeWorker.run_analysis (src/main.py lines 99-132).
Progress 0 is emitted first; a failed authenticate (boolean False) has
already emitted its own error and returns early through finally. -/
def run_analysis (env : AnalysisEnv) : AnalysisOut :=
  match authenticate env.authEnv with
  | .error e => ⟨[0], ["Analysis failed: " ++ e], none, 1⟩
  | .ok a =>
    if a.result then
      let r := analysisMain env
      ⟨r.progressVals, a.errors ++ r.errors, r.tagsReady, r.finished⟩
    else ⟨[0], a.errors, none, 1⟩

/-- The per-video progress percentage of create_playlist line 146:
20 + int(((i + 1) / len(videos_to_add)) * 80), with float division and int
truncation modelled by exact natural (floor) division. -/
def creationBatchProgress (n i : Nat) : Nat := 20 + (i + 1) * 80 / n

/-- Embedding of the insertion loop of create_playlist lines 144-146 over
the remaining candidate ids.  One insertion response is consumed per
candidate; n is len(videos_to_add) and i the running enumerate index.
Returns the number of insertion calls issued, the emitted progress
percentages, and the raised exception message if any; a raised insertion
aborts the loop immediately after its own call. -/
def insertLoop (n : Nat) :
    Nat → List String → List (Except String Unit) → Nat × List Nat × Option String
  | _, [], _ => (0, [], none)
  | _, _ :: _, [] => (1, [], some "playlistItems insert failed")
  | i, _v :: rest, r :: rtail =>
    match r with
    | .error e => (1, [], some e)
    | .ok _ =>
      let out := insertLoop n (i + 1) rest rtail
      (out.1 + 1, creationBatchProgress n i :: out.2.1, out.2.2)

/-- create_playlist line 141: the candidate ids, in stored order, of the
videos whose stored (lower-cased) tag list contains the lowered target
tag. -/
def candidates (all_videos : List StoredVideo) (tag : String) : List String :=
  (all_videos.filter (fun v => v.tags.contains (pyLower tag))).map (fun v => v.id)

/-- Environment of one create_playlist call: whether the worker already
holds valid credentials, the authentication environment used otherwise,
and the responses of the playlist-creation and item-insertion calls. -/
structure CreateEnv where
  credsValid : Bool
  authEnv : AuthEnv
  playlistInsertResult : Except String String
  itemInsertResults : List (Except String Unit)

/-- Observable outcome of create_playlist: emitted progress percentages,
emitted error messages, the playlist_created payload, the numbers of
playlist-creation and item-insertion calls issued, and the number of
finished emissions.  The source contains no playlist deletion call, so a
created playlist always remains in place. -/
structure CreateOut where
  progressVals : List Nat
  errors : List String
  created : Option (String × Nat)
  playlistInsertCalls : Nat
  itemInsertCalls : Nat
  finished : Nat
deriving DecidableEq, Repr

/-- The body of create_playlist from the playlists().insert call on
(src/main.py lines 138-147); pv0 is the list of progress percentages
already emitted by the re-authentication step. -/
def createMain (env : CreateEnv) (title tag : String) (all_videos : List StoredVideo)
    (pv0 : List Nat) : CreateOut :=
  match env.playlistInsertResult with
  | .error e => ⟨pv0 ++ [10], ["Failed to create playlist: " ++ e], none, 1, 0, 1⟩
  | .ok _pid =>
    let videos_to_add := candidates all_videos tag
    if videos_to_add.isEmpty then ⟨pv0 ++ [10], [], some (title, 0), 1, 0, 1⟩
    else
      let out := insertLoop videos_to_add.length 0 videos_to_add env.itemInsertResults
      match out.2.2 with
      | some e =>
        ⟨pv0 ++ [10, 20] ++ out.2.1, ["Failed to create playlist: " ++ e], none, 1, out.1, 1⟩
      | none =>
        ⟨pv0 ++ [10, 20] ++ out.2.1, [], some (title, videos_to_add.length), 1, out.1, 1⟩

/-- Embedding of YouTubeWorker.create_playlist (src/main.py lines
133-149).  credsValid models self.credentials being present and valid; a
failed re-authentication (boolean False) has already emitted its own error
and returns early through finally. -/
def create_playlist (env : CreateEnv) (title _description _privacy tag : String)
    (all_videos : List StoredVideo) : CreateOut :=
  if env.credsValid then createMain env title tag all_videos []
  else
    match authenticate env.authEnv with
    | .error e => ⟨[0], ["Failed to create playlist: " ++ e], none, 0, 0, 1⟩
    | .ok a =>
      if a.result then
        let m := createMain env title tag all_videos [0]
        ⟨m.progressVals, a.errors ++ m.errors, m.created,
         m.playlistInsertCalls, m.itemInsertCalls, m.finished⟩
      else ⟨[0], a.errors, none, 0, 0, 1⟩

/-- Chunking of a playlist of entries into pages of at most 50, the page
size of the playlistItems endpoint. -/
def chunks : List String → List (List String)
  | [] => []
  | x :: xs => (x :: xs).take 50 :: chunks ((x :: xs).drop 50)
termination_by l => l.length
decreasing_by simp [List.length_drop]; omega

/-- Attaching continuation tokens to a page sequence: every page except
the last carries a (truthy) token, the last carries none. -/
def attachTokens : List (List String) → List Page
  | [] => []
  | [c] => [⟨c, none⟩]
  | c :: rest => ⟨c, some "NEXT"⟩ :: attachTokens rest

/-- Canonical behaviour of the paged collection endpoint for a playlist
with the given entries: full pages of 50 followed by a final partial page;
an empty playlist is served as one page with no items and no token. -/
def pagesFor (entries : List String) : List Page :=
  if entries.isEmpty then [⟨[], none⟩] else attachTokens (chunks entries)

/-- Observation: the count the aggregation assigns to a normalized tag,
namely the number of occurrences of the tag in the lowered raw stream. -/
def tagOccurrences (vids : List VideoItem) (k : String) : Nat :=
  ((allTagsRaw vids).map pyLower).count k

/-- Observation: the number of fetched videos whose normalized tag list
contains the given normalized tag. -/
def videosContaining (vids : List VideoItem) (k : String) : Nat :=
  (vids.filter (fun v => decide (k ∈ (rawTags v).map pyLower))).length

/-- Observation: the display form the aggregation chooses for a normalized
tag. -/
def displayFor (vids : List VideoItem) (k : String) : String :=
  ((buildCasingMap (allTagsRaw vids)).lookup k).getD k

/-- Concatenation of a sequence of id lists, in order. -/
def joinAll : List (List String) → List String
  | [] => []
  | c :: cs => c ++ joinAll cs

/-- A video that lists the same tag twice in two casings. -/
def vidsCaseDup : List VideoItem := [⟨"a", some ["Cats", "cats"]⟩]

/-- Two videos sharing both tags in different casings (the regression case
of the spec). -/
def vidsCasing : List VideoItem :=
  [⟨"a", some ["Cats", "dog"]⟩, ⟨"b", some ["cats", "Dog"]⟩]

/-- A tag stream with counts x:3, y:5, z:5 and first insertions in the
order x, y, z. -/
def vidsTie : List VideoItem :=
  [⟨"a", some ["x", "x", "x", "y", "y", "y", "y", "y", "z", "z", "z", "z", "z"]⟩]

/-- Two videos with the same tag in different casings. -/
def vidsRock : List VideoItem := [⟨"a", some ["Rock"]⟩, ⟨"b", some ["rock"]⟩]

/-- An authentication environment whose persisted credential is already
valid, so authenticate succeeds immediately. -/
def authEnvOk : AuthEnv := ⟨true, ⟨true, false, false⟩, false, "", false, .ok ()⟩

/-- An authentication environment with an expired credential holding a
refresh token whose silent refresh fails. -/
def authEnvRefreshFail : AuthEnv := ⟨true, ⟨false, true, true⟩, false, "boom", false, .ok ()⟩

/-- Analysis environment for a playlist of 10 videos served on one page;
the single metadata response returns no items. -/
def env10 : AnalysisEnv :=
  ⟨authEnvOk, .ok "UP",
   [.ok ⟨["v1", "v2", "v3", "v4", "v5", "v6", "v7", "v8", "v9", "v10"], none⟩],
   [.ok []]⟩

/-- Analysis environment for an empty uploads playlist; the metadata
response list is a poison value that would fail the run if any metadata
request were issued. -/
def envEmpty : AnalysisEnv :=
  ⟨authEnvOk, .ok "UP", [.ok ⟨[], none⟩],
   [.error "metadata request must not be issued"]⟩

/-- Analysis environment whose authentication hits the failed-refresh
path. -/
def envRefresh : AnalysisEnv := ⟨authEnvRefreshFail, .ok "UP", [], []⟩

/-- Three stored videos all tagged rock. -/
def rock3 : List StoredVideo := [⟨"a", ["rock"]⟩, ⟨"b", ["rock"]⟩, ⟨"c", ["rock"]⟩]

/-- Creation environment where the second insertion call raises. -/
def envC6 : CreateEnv := ⟨true, authEnvOk, .ok "PL", [.ok (), .error "boom"]⟩

/-- Creation environment with no insertion responses needed. -/
def envC7 : CreateEnv := ⟨true, authEnvOk, .ok "PL", []⟩

/-! Helper lemmas about the stable descending sort. -/

theorem insertDesc_perm (x : String × Nat) (l : List (String × Nat)) :
    (insertDesc x l).Perm (x :: l) := by
  induction l with
  | nil => simp [insertDesc]
  | cons y ys ih =>
    by_cases h : y.2 ≤ x.2
    · simp [insertDesc, h]
    · simp only [insertDesc, if_neg h]
      exact (ih.cons y).trans (List.Perm.swap x y ys)

theorem sortDesc_perm (l : List (String × Nat)) : (sortDesc l).Perm l := by
  induction l with
  | nil => simp [sortDesc]
  | cons x xs ih => exact (insertDesc_perm x (sortDesc xs)).trans (ih.cons x)

theorem pairwise_insertDesc (x : String × Nat) (l : List (String × Nat))
    (h : l.Pairwise (fun p q => q.2 ≤ p.2)) :
    (insertDesc x l).Pairwise (fun p q => q.2 ≤ p.2) := by
  induction l with
  | nil => simp [insertDesc]
  | cons y ys ih =>
    rcases List.pairwise_cons.1 h with ⟨hy, hys⟩
    by_cases hc : y.2 ≤ x.2
    · simp only [insertDesc, if_pos hc]
      refine List.pairwise_cons.2 ⟨?_, h⟩
      intro z hz
      rcases List.mem_cons.1 hz with rfl | hz
      · exact hc
      · exact (hy z hz).trans hc
    · simp only [insertDesc, if_neg hc]
      refine List.pairwise_cons.2 ⟨?_, ih hys⟩
      intro z hz
      have hz2 : z = x ∨ z ∈ ys := by
        simpa using (insertDesc_perm x ys).mem_iff.1 hz
      rcases hz2 with rfl | hz2
      · omega
      · exact hy z hz2

theorem sortDesc_sorted (l : List (String × Nat)) :
    (sortDesc l).Pairwise (fun p q => q.2 ≤ p.2) := by
  induction l with
  | nil => simp [sortDesc]
  | cons x xs ih => exact pairwise_insertDesc x (sortDesc xs) ih

theorem filter_insertDesc (x : String × Nat) (l : List (String × Nat)) (c : Nat) :
    (insertDesc x l).filter (fun p => p.2 == c)
      = if x.2 = c then x :: l.filter (fun p => p.2 == c)
        else l.filter (fun p => p.2 == c) := by
  induction l with
  | nil => by_cases h : x.2 = c <;> simp [insertDesc, h]
  | cons y ys ih =>
    by_cases hc : y.2 ≤ x.2
    · rw [insertDesc, if_pos hc]
      by_cases hx : x.2 = c <;> simp [List.filter_cons, hx]
    · rw [insertDesc, if_neg hc]
      by_cases hy : y.2 = c
      · have hx : ¬x.2 = c := fun hx => hc (le_of_eq (hy.trans hx.symm))
        simp [List.filter_cons, hy, hx, ih]
      · by_cases hx : x.2 = c <;> simp [List.filter_cons, hy, hx, ih]

theorem filter_sortDesc (l : List (String × Nat)) (c : Nat) :
    (sortDesc l).filter (fun p => p.2 == c) = l.filter (fun p => p.2 == c) := by
  induction l with
  | nil => rfl
  | cons x xs ih =>
    by_cases hx : x.2 = c <;>
      simp [sortDesc, filter_insertDesc, hx, ih, List.filter_cons]

/-! Helper lemmas about the casing map. -/

theorem lookup_dictInsert (m : List (String × String)) (k v k2 : String) :
    (dictInsert m k v).lookup k2 = if k2 = k then some v else m.lookup k2 := by
  induction m with
  | nil =>
    by_cases h : k2 = k
    · simp [dictInsert, List.lookup, beq_iff_eq.2 h, h]
    · have hbe : (k2 == k) = false := by simp [h]
      simp [dictInsert, List.lookup, hbe, h]
  | cons p ms ih =>
    obtain ⟨a, b⟩ := p
    by_cases hak : a = k
    · subst hak
      rw [dictInsert, if_pos (beq_iff_eq.2 rfl)]
      by_cases h2 : k2 = a
      · simp [List.lookup, beq_iff_eq.2 h2, h2]
      · have hbe : (k2 == a) = false := by simp [h2]
        simp [List.lookup, hbe, h2]
    · rw [dictInsert, if_neg (fun hcon => hak (eq_of_beq hcon))]
      by_cases h2a : k2 = a
      · have hkk : ¬k2 = k := by rw [h2a]; exact hak
        simp [List.lookup, beq_iff_eq.2 h2a, hkk]
      · have hbe : (k2 == a) = false := by simp [h2a]
        simp [List.lookup, hbe, ih]

theorem buildCasingMap_cons (t : String) (rest : List String) :
    buildCasingMap (t :: rest) = dictInsert (buildCasingMap rest) (pyLower t) t := by
  simp [buildCasingMap, List.foldl_append]

theorem lookup_buildCasingMap (raw : List String) (k : String) :
    (buildCasingMap raw).lookup k = raw.find? (fun t => pyLower t == k) := by
  induction raw with
  | nil => rfl
  | cons t rest ih =>
    rw [buildCasingMap_cons, lookup_dictInsert]
    by_cases h : k = pyLower t
    · simp [List.find?, h]
    · have hne : (pyLower t == k) = false := by
        simp
        exact fun hcon => h hcon.symm
      simp [List.find?, hne, ih, h]

/-! Helper lemmas about occurrence counts. -/

theorem count_allTagsRaw (vids : List VideoItem) (k : String) :
    ((allTagsRaw vids).map pyLower).count k
      = (vids.map (fun v => ((rawTags v).map pyLower).count k)).sum := by
  induction vids with
  | nil => rfl
  | cons v vs ih => simp [allTagsRaw, ih]

theorem count_videos_nodup (vids : List VideoItem) (k : String)
    (h : ∀ v ∈ vids, ((rawTags v).map pyLower).Nodup) :
    ((allTagsRaw vids).map pyLower).count k = videosContaining vids k := by
  induction vids with
  | nil => rfl
  | cons v vs ih =>
    have hv := h v (by simp)
    have hrest := ih (fun w hw => h w (by simp [hw]))
    by_cases hm : k ∈ (rawTags v).map pyLower
    · rw [videosContaining, List.filter_cons]
      simp only [allTagsRaw, List.map_append, List.count_append]
      rw [List.count_eq_one_of_mem hv hm, hrest]
      simp [videosContaining, hm, Nat.add_comm]
    · rw [videosContaining, List.filter_cons]
      simp only [allTagsRaw, List.map_append, List.count_append]
      rw [List.count_eq_zero_of_not_mem hm, hrest]
      simp [videosContaining, hm]

/-! Helper lemmas about the pagination model. -/

theorem joinAll_chunks (l : List String) : joinAll (chunks l) = l := by
  induction l using chunks.induct with
  | case1 => simp [chunks, joinAll]
  | case2 x xs ih =>
    rw [chunks, joinAll, ih, List.take_append_drop]

theorem chunks_ne_nil (l : List String) (h : l ≠ []) : chunks l ≠ [] := by
  cases l with
  | nil => exact absurd rfl h
  | cons x xs => rw [chunks]; exact List.cons_ne_nil _ _

theorem chunks_length (l : List String) (h : l ≠ []) :
    (chunks l).length = (l.length + 49) / 50 := by
  induction l using chunks.induct with
  | case1 => exact absurd rfl h
  | case2 x xs ih =>
    rw [chunks, List.length_cons]
    by_cases hlen : (x :: xs).length ≤ 50
    · have hdrop : (x :: xs).drop 50 = [] := by
        rw [List.drop_eq_nil_iff]
        exact hlen
      rw [hdrop]
      simp only [chunks, List.length_nil, List.length_cons] at hlen ⊢
      omega
    · have hdrop : (x :: xs).drop 50 ≠ [] := by
        intro hcon
        rw [List.drop_eq_nil_iff] at hcon
        exact hlen hcon
      rw [ih hdrop, List.length_drop]
      simp only [List.length_cons] at hlen ⊢
      omega

theorem getAllVideoIds_attachTokens (cs : List (List String))
    (extra : List (Except String Page)) (h : cs ≠ []) :
    getAllVideoIds ((attachTokens cs).map Except.ok ++ extra)
      = .ok (joinAll cs, cs.length) := by
  induction cs with
  | nil => exact absurd rfl h
  | cons c cs2 ih =>
    cases cs2 with
    | nil => simp [attachTokens, getAllVideoIds, truthyToken, joinAll]
    | cons c2 cs3 =>
      have ih2 := ih (by simp)
      simp only [attachTokens, List.map_cons, List.cons_append, getAllVideoIds,
                 truthyToken, List.append_eq]
      rw [if_pos (by decide)]
      rw [ih2]
      simp [joinAll]

/-! Helper lemmas about authenticate and the two pipeline bodies. -/

theorem authenticate_ok_inv (env : AuthEnv) (a : AuthOut)
    (h : authenticate env = Except.ok a) :
    a.errors.length ≤ 1 ∧ (a.result = true → a.errors = []) := by
  rcases env with ⟨tf, ⟨cv, ce, cr⟩, ro, rm, sf, fr⟩
  cases fr <;>
    cases tf <;> cases cv <;> cases ce <;> cases cr <;> cases ro <;> cases sf <;>
    simp [authenticate, interactiveFlow] at h <;> simp [← h]

theorem insertLoop_error_spec (n : Nat) (e : String) (rest : List (Except String Unit)) :
    ∀ (j i : Nat) (vs : List String), j < vs.length →
      ∃ pvs, insertLoop n i vs (List.replicate j (Except.ok ()) ++ Except.error e :: rest)
        = (j + 1, pvs, some e) := by
  intro j
  induction j with
  | zero =>
    intro i vs h
    cases vs with
    | nil => simp at h
    | cons v vt => exact ⟨[], by simp [insertLoop]⟩
  | succ j ih =>
    intro i vs h
    cases vs with
    | nil => simp at h
    | cons v vt =>
      obtain ⟨pvs, hp⟩ := ih (i + 1) vt (by simp at h; omega)
      refine ⟨creationBatchProgress n i :: pvs, ?_⟩
      rw [List.replicate_succ, List.cons_append, insertLoop, hp]

theorem insertLoop_none_calls (n : Nat) :
    ∀ (vs : List String) (i : Nat) (resps : List (Except String Unit)),
      (insertLoop n i vs resps).2.2 = none →
      (insertLoop n i vs resps).1 = vs.length := by
  intro vs
  induction vs with
  | nil => intro i resps _; rfl
  | cons v vt ih =>
    intro i resps h
    cases resps with
    | nil => simp [insertLoop] at h
    | cons r rtail =>
      cases r with
      | error e => simp [insertLoop] at h
      | ok u =>
        rw [insertLoop] at h ⊢
        simp at h ⊢
        rw [ih (i + 1) rtail h]

theorem createMain_created (env : CreateEnv) (title tag : String)
    (vids : List StoredVideo) (pv0 : List Nat) (r : String × Nat)
    (h : (createMain env title tag vids pv0).created = some r) :
    r = (title, (candidates vids tag).length)
    ∧ (createMain env title tag vids pv0).errors = [] := by
  obtain ⟨cvd, aenv, plr, iir⟩ := env
  cases plr with
  | error e => simp [createMain] at h
  | ok pid =>
    by_cases hemp : (candidates vids tag).isEmpty
    · have hz : (candidates vids tag).length = 0 := by
        rw [List.isEmpty_iff] at hemp
        simp [hemp]
      simp [createMain, hemp] at h ⊢
      rw [hz]
      exact h.symm
    · simp only [createMain] at h ⊢
      rw [if_neg hemp] at h ⊢
      cases hE : (insertLoop (candidates vids tag).length 0 (candidates vids tag)
          iir).2.2 with
      | some e2 => simp [hE] at h
      | none =>
        simp [hE] at h ⊢
        exact h.symm

theorem createMain_inv (env : CreateEnv) (title tag : String)
    (vids : List StoredVideo) (pv0 : List Nat) :
    (createMain env title tag vids pv0).errors.length ≤ 1
    ∧ (createMain env title tag vids pv0).finished = 1 := by
  obtain ⟨cvd, aenv, plr, iir⟩ := env
  cases plr with
  | error e => simp [createMain]
  | ok pid =>
    by_cases hemp : (candidates vids tag).isEmpty
    · simp [createMain, hemp]
    · simp only [createMain]
      rw [if_neg hemp]
      cases hE : (insertLoop (candidates vids tag).length 0 (candidates vids tag)
          iir).2.2 with
      | some e => simp [hE]
      | none => simp [hE]

theorem analysisMain_inv (env : AnalysisEnv) :
    (analysisMain env).errors.length ≤ 1 ∧ (analysisMain env).finished = 1 := by
  obtain ⟨aenv, ch, pr, vr⟩ := env
  cases ch with
  | error e => simp [analysisMain]
  | ok u =>
    cases hg : getAllVideoIds pr with
    | error e => simp [analysisMain, hg]
    | ok p =>
      obtain ⟨ids, n⟩ := p
      cases hp : processChunks ids.length 0 ids vr with
      | error e => simp [analysisMain, hg, hp]
      | ok t =>
        obtain ⟨raw, vstore, pvs⟩ := t
        simp [analysisMain, hg, hp]

/-! The claims. -/

/-- C1 counterexample: the claim says a video that lists the same tag more
than once (here Cats and cats) contributes at most 1 to the count of the
normalized tag, so the count for cats should be 1 (one video contains it);
the aggregation actually reports 2, because Counter counts occurrences of
the lowered raw stream, not videos. -/
theorem C1_counterexample :
    aggregate vidsCaseDup = [("Cats", 2)]
    ∧ videosContaining vidsCaseDup "cats" = 1
    ∧ (2 : Nat) ≠ 1 :=
  ⟨by decide, by decide, by decide⟩

/-- C1 amended: for every list of fetched videos and every normalized tag
produced by the aggregation, the reported pair is (display form, number of
occurrences of the tag in the lowered raw stream); that count is the sum
over the videos of their per-video occurrence counts, so a video listing
the same tag m times contributes m; when no video repeats a tag up to
case, the count equals the number of videos whose normalized tag list
contains the tag. -/
theorem C1_amended_count (vids : List VideoItem) (k : String)
    (hk : k ∈ dedupFirst ((allTagsRaw vids).map pyLower)) :
    (displayFor vids k, tagOccurrences vids k) ∈ aggregate vids
    ∧ tagOccurrences vids k
        = (vids.map (fun v => ((rawTags v).map pyLower).count k)).sum
    ∧ ((∀ v ∈ vids, ((rawTags v).map pyLower).Nodup) →
        tagOccurrences vids k = videosContaining vids k) := by
  refine ⟨?_, count_allTagsRaw vids k, fun h => count_videos_nodup vids k h⟩
  have hmem := List.mem_map_of_mem
    (fun k2 => (((buildCasingMap (allTagsRaw vids)).lookup k2).getD k2,
      ((allTagsRaw vids).map pyLower).count k2)) hk
  exact (sortDesc_perm (processedTags (allTagsRaw vids))).mem_iff.2 hmem

/-- Witness for C1 amended at a concrete input: two videos tagged Rock and
rock. -/
theorem C1_amended_count_witness :
    ("rock" ∈ dedupFirst ((allTagsRaw vidsRock).map pyLower))
    ∧ ((displayFor vidsRock "rock", tagOccurrences vidsRock "rock") ∈ aggregate vidsRock
      ∧ tagOccurrences vidsRock "rock"
          = (vidsRock.map (fun v => ((rawTags v).map pyLower).count "rock")).sum
      ∧ ((∀ v ∈ vidsRock, ((rawTags v).map pyLower).Nodup) →
          tagOccurrences vidsRock "rock" = videosContaining vidsRock "rock")) :=
  ⟨by decide, C1_amended_count vidsRock "rock" (by decide)⟩

/-- C2: for every raw tag stream, the casing map assigns to each
normalized key the original-case spelling of its first occurrence in fetch
order (the map is built over the reversed stream, so earlier entries
shadow later ones), and on the concrete regression input the aggregation
yields (Cats, 2) and (dog, 2). -/
theorem C2_display_first_occurrence :
    (∀ (raw : List String) (k : String),
        (buildCasingMap raw).lookup k = raw.find? (fun t => pyLower t == k))
    ∧ aggregate vidsCasing = [("Cats", 2), ("dog", 2)] :=
  ⟨lookup_buildCasingMap, by decide⟩

/-- C3 counterexample: for an empty playlist the fetch loop still issues
one page request (it is do-while), while the claimed request count is
ceil(0 / 50) = 0. -/
theorem C3_counterexample :
    getAllVideoIds ((pagesFor []).map Except.ok) = .ok ([], 1)
    ∧ (List.length ([] : List String) + 49) / 50 = 0
    ∧ (1 : Nat) ≠ 0 :=
  ⟨rfl, by decide, by decide⟩

/-- C3 amended: fetching a playlist of n entries served in full pages of
50 issues exactly max 1 (ceil(n / 50)) page requests (one request even for
an empty playlist) and returns exactly the n ids as the concatenation of
the pages in response order with duplicates retained; the loop terminates
at the first page without continuation token, never touching any later
responses (the arbitrary extra suffix). -/
theorem C3_amended_pagination (entries : List String)
    (extra : List (Except String Page)) :
    getAllVideoIds ((pagesFor entries).map Except.ok ++ extra)
      = .ok (entries, max 1 ((entries.length + 49) / 50)) := by
  by_cases h : entries = []
  · subst h
    simp [pagesFor, getAllVideoIds, truthyToken]
  · have hne : entries.isEmpty = false := by
      cases entries with
      | nil => exact absurd rfl h
      | cons x xs => rfl
    rw [pagesFor, if_neg (by simp [hne])]
    rw [getAllVideoIds_attachTokens _ _ (chunks_ne_nil entries h), joinAll_chunks,
        chunks_length entries h]
    have hlen : 1 ≤ entries.length := List.length_pos.2 h
    have hmax : max 1 ((entries.length + 49) / 50) = (entries.length + 49) / 50 := by
      omega
    rw [hmax]

/-- C4: the aggregated pairs are sorted by count descending; pairs with
equal counts keep exactly the pre-sort order, which is the first-insertion
order of their normalized tags in the Counter; on the concrete input with
counts x:3, y:5, z:5 and insertion order x, y, z, the output is y, z, x. -/
theorem C4_sort_stable_desc (raw : List String) (c : Nat) :
    (aggregateTags raw).Pairwise (fun p q => q.2 ≤ p.2)
    ∧ (aggregateTags raw).filter (fun p => p.2 == c)
        = (processedTags raw).filter (fun p => p.2 == c)
    ∧ aggregate vidsTie = [("y", 5), ("z", 5), ("x", 3)] :=
  ⟨sortDesc_sorted (processedTags raw), filter_sortDesc (processedTags raw) c, by decide⟩

/-- C5 (code bug): with 10 videos the single analysis batch emits the
progress value 40 + ((0 + 50) * 50) / 10 = 290, far outside both the
claimed 0-100 range and the 40-90 band; the batch formula of
run_analysis line 117 divides i + 50 instead of min(i + 50, n) by n. -/
theorem C5_progress_overflow :
    run_analysis env10 = ⟨[0, 10, 20, 40, 290, 100], [], some [], 1⟩
    ∧ 290 ∈ (run_analysis env10).progressVals
    ∧ 100 < 290 ∧ 90 < 290 :=
  ⟨by decide, by decide, by decide, by decide⟩

/-- C6: if the j-th (0-based) insertion call raises while all earlier ones
succeeded, then exactly j + 1 insertion calls are issued (none for the
remaining candidates), one error is reported, playlist_created is not
emitted, and finished is emitted once; moreover, for any environment, a
playlist_created emission carries the full candidate count and can only
happen in an error-free run, in which every insertion call succeeded. -/
theorem C6_stop_on_first_error (env : CreateEnv) (title description privacy tag : String)
    (vids : List StoredVideo) (pid : String) (j : Nat) (e : String)
    (rest : List (Except String Unit))
    (hcreds : env.credsValid = true)
    (hpl : env.playlistInsertResult = Except.ok pid)
    (hins : env.itemInsertResults
        = List.replicate j (Except.ok ()) ++ Except.error e :: rest)
    (hj : j < (candidates vids tag).length) :
    ((create_playlist env title description privacy tag vids).itemInsertCalls = j + 1
      ∧ (create_playlist env title description privacy tag vids).created = none
      ∧ (create_playlist env title description privacy tag vids).errors
          = ["Failed to create playlist: " ++ e]
      ∧ (create_playlist env title description privacy tag vids).finished = 1)
    ∧ (∀ (env2 : CreateEnv) (r : String × Nat),
        (create_playlist env2 title description privacy tag vids).created = some r →
        r = (title, (candidates vids tag).length)
        ∧ (create_playlist env2 title description privacy tag vids).errors = []) := by
  constructor
  · obtain ⟨pvs, hloop⟩ := insertLoop_error_spec (candidates vids tag).length e rest j 0
      (candidates vids tag) hj
    have hemp : ¬(candidates vids tag).isEmpty = true := by
      cases hcand : candidates vids tag with
      | nil => rw [hcand] at hj; simp at hj
      | cons a as => simp [hcand]
    rw [create_playlist, if_pos hcreds]
    simp only [createMain, hpl]
    rw [if_neg hemp, hins, hloop]
    simp
  · intro env2 r hsome
    by_cases hcv : env2.credsValid = true
    · rw [create_playlist, if_pos hcv] at hsome ⊢
      exact createMain_created env2 title tag vids [] r hsome
    · rw [create_playlist, if_neg hcv] at hsome ⊢
      cases hA : authenticate env2.authEnv with
      | error e2 => rw [hA] at hsome; simp at hsome
      | ok a =>
        rw [hA] at hsome
        simp only [] at hsome ⊢
        by_cases hr : a.result = true
        · rw [if_pos hr] at hsome ⊢
          simp only [] at hsome ⊢
          have hmc := createMain_created env2 title tag vids [0] r hsome
          refine ⟨hmc.1, ?_⟩
          rw [(authenticate_ok_inv env2.authEnv a hA).2 hr, hmc.2]
          rfl
        · rw [if_neg hr] at hsome
          simp at hsome

/-- Witness for C6 at a concrete input: three rock candidates, the second
insertion raises. -/
theorem C6_stop_on_first_error_witness :
    (envC6.credsValid = true
      ∧ envC6.playlistInsertResult = Except.ok "PL"
      ∧ envC6.itemInsertResults
          = List.replicate 1 (Except.ok ()) ++ Except.error "boom" :: []
      ∧ 1 < (candidates rock3 "Rock").length)
    ∧ (((create_playlist envC6 "T" "d" "public" "Rock" rock3).itemInsertCalls = 1 + 1
      ∧ (create_playlist envC6 "T" "d" "public" "Rock" rock3).created = none
      ∧ (create_playlist envC6 "T" "d" "public" "Rock" rock3).errors
          = ["Failed to create playlist: " ++ "boom"]
      ∧ (create_playlist envC6 "T" "d" "public" "Rock" rock3).finished = 1)
    ∧ (∀ (env2 : CreateEnv) (r : String × Nat),
        (create_playlist env2 "T" "d" "public" "Rock" rock3).created = some r →
        r = ("T", (candidates rock3 "Rock").length)
        ∧ (create_playlist env2 "T" "d" "public" "Rock" rock3).errors = [])) :=
  ⟨⟨rfl, rfl, rfl, by decide⟩,
   C6_stop_on_first_error envC6 "T" "d" "public" "Rock" rock3 "PL" 1 "boom" []
     rfl rfl rfl (by decide)⟩

/-- C7: when no stored video matches the target tag, create_playlist
issues the single playlist-creation call and zero insertion calls, reports
playlist_created with count 0 (a success, not an error), and finishes; the
model contains no deletion call, so the created empty playlist remains. -/
theorem C7_zero_candidates (env : CreateEnv) (title description privacy tag : String)
    (vids : List StoredVideo) (pid : String)
    (hcreds : env.credsValid = true)
    (hpl : env.playlistInsertResult = Except.ok pid)
    (hno : candidates vids tag = []) :
    create_playlist env title description privacy tag vids
      = ⟨[10], [], some (title, 0), 1, 0, 1⟩ := by
  rw [create_playlist, if_pos hcreds]
  simp [createMain, hpl, hno]

/-- Witness for C7 at a concrete input: one rock video, target tag jazz. -/
theorem C7_zero_candidates_witness :
    (envC7.credsValid = true
      ∧ envC7.playlistInsertResult = Except.ok "PL"
      ∧ candidates [⟨"a", ["rock"]⟩] "jazz" = [])
    ∧ create_playlist envC7 "T" "d" "public" "jazz" [⟨"a", ["rock"]⟩]
        = ⟨[10], [], some ("T", 0), 1, 0, 1⟩ :=
  ⟨⟨rfl, rfl, by decide⟩,
   C7_zero_candidates envC7 "T" "d" "public" "jazz" [⟨"a", ["rock"]⟩] "PL"
     rfl rfl (by decide)⟩

/-- C8: an expired persisted credential with a refresh token whose silent
refresh fails makes authenticate delete the token file, emit exactly the
refresh-failure error, return False without installing the credential, and
the analysis run stops right there: no further progress, no tag result. -/
theorem C8_refresh_failure (env : AnalysisEnv)
    (h1 : env.authEnv.tokenFileExists = true)
    (h2 : env.authEnv.stored.valid = false)
    (h3 : env.authEnv.stored.expired = true)
    (h4 : env.authEnv.stored.refreshToken = true)
    (h5 : env.authEnv.refreshOk = false) :
    authenticate env.authEnv
      = Except.ok ⟨false, ["Token refresh failed: " ++ env.authEnv.refreshErrMsg],
          true, false, false⟩
    ∧ run_analysis env
      = ⟨[0], ["Token refresh failed: " ++ env.authEnv.refreshErrMsg], none, 1⟩ := by
  have hA : authenticate env.authEnv
      = Except.ok ⟨false, ["Token refresh failed: " ++ env.authEnv.refreshErrMsg],
          true, false, false⟩ := by
    rw [authenticate, if_pos h1, if_neg (by simp [h2]), if_pos (by simp [h3, h4]),
        if_neg (by simp [h5])]
  refine ⟨hA, ?_⟩
  rw [run_analysis, hA]
  simp

/-- Witness for C8 at a concrete input. -/
theorem C8_refresh_failure_witness :
    (envRefresh.authEnv.tokenFileExists = true
      ∧ envRefresh.authEnv.stored.valid = false
      ∧ envRefresh.authEnv.stored.expired = true
      ∧ envRefresh.authEnv.stored.refreshToken = true
      ∧ envRefresh.authEnv.refreshOk = false)
    ∧ (authenticate envRefresh.authEnv
        = Except.ok ⟨false, ["Token refresh failed: " ++ envRefresh.authEnv.refreshErrMsg],
            true, false, false⟩
      ∧ run_analysis envRefresh
        = ⟨[0], ["Token refresh failed: " ++ envRefresh.authEnv.refreshErrMsg], none, 1⟩) :=
  ⟨⟨rfl, rfl, rfl, rfl, rfl⟩, C8_refresh_failure envRefresh rfl rfl rfl rfl rfl⟩

/-- C9: for every environment, each of the two worker entry points emits
at most one error message and exactly one finished signal, reflecting the
single try/except/finally boundary of each task. -/
theorem C9_error_once_finished_once (aenv : AnalysisEnv) (cenv : CreateEnv)
    (title description privacy tag : String) (vids : List StoredVideo) :
    ((run_analysis aenv).errors.length ≤ 1 ∧ (run_analysis aenv).finished = 1)
    ∧ ((create_playlist cenv title description privacy tag vids).errors.length ≤ 1
      ∧ (create_playlist cenv title description privacy tag vids).finished = 1) := by
  constructor
  · cases hA : authenticate aenv.authEnv with
    | error e => simp [run_analysis, hA]
    | ok a =>
      have hinv := authenticate_ok_inv aenv.authEnv a hA
      by_cases hr : a.result = true
      · have hm := analysisMain_inv aenv
        simp [run_analysis, hA, hr, hinv.2 hr, hm.1, hm.2]
      · simp only [run_analysis, hA]
        rw [if_neg hr]
        exact ⟨hinv.1, rfl⟩
  · by_cases hcv : cenv.credsValid = true
    · have hm := createMain_inv cenv title tag vids []
      rw [create_playlist, if_pos hcv]
      exact ⟨hm.1, hm.2⟩
    · rw [create_playlist, if_neg hcv]
      cases hA : authenticate cenv.authEnv with
      | error e => simp
      | ok a =>
        have hinv := authenticate_ok_inv cenv.authEnv a hA
        simp only []
        by_cases hr : a.result = true
        · have hm := createMain_inv cenv title tag vids [0]
          rw [if_pos hr]
          simp only []
          rw [hinv.2 hr]
          exact ⟨by simpa using hm.1, hm.2⟩
        · rw [if_neg hr]
          exact ⟨hinv.1, rfl⟩

/-- C10: when the uploads playlist is served as one empty page, the
analysis emits exactly the fixed progress values 0, 10, 20, 40, 100 (no
per-batch value, so the division by len(video_ids) is never evaluated),
reports no error, and delivers the empty tag result, for any metadata
response list whatsoever (no metadata request is consumed). -/
theorem C10_empty_video_list (env : AnalysisEnv) (a : AuthOut) (u : String)
    (hauth : authenticate env.authEnv = Except.ok a)
    (hres : a.result = true) (herr : a.errors = [])
    (hch : env.channelResult = Except.ok u)
    (hpg : env.pageResponses = [Except.ok ⟨[], none⟩]) :
    run_analysis env = ⟨[0, 10, 20, 40, 100], [], some [], 1⟩ := by
  have hmain : analysisMain env = ⟨[0, 10, 20, 40, 100], [], some [], 1⟩ := by
    rw [analysisMain, hch, hpg]
    simp [getAllVideoIds, truthyToken, processChunks, aggregateTags, processedTags,
          dedupFirst, dedupFirstAux, sortDesc]
  rw [run_analysis, hauth]
  simp [hres, herr, hmain]

/-- Witness for C10 at a concrete input whose metadata response list is a
poison value: the run still succeeds, so no metadata request was issued. -/
theorem C10_empty_video_list_witness :
    (authenticate envEmpty.authEnv = Except.ok ⟨true, [], false, false, true⟩
      ∧ (⟨true, [], false, false, true⟩ : AuthOut).result = true
      ∧ (⟨true, [], false, false, true⟩ : AuthOut).errors = []
      ∧ envEmpty.channelResult = Except.ok "UP"
      ∧ envEmpty.pageResponses = [Except.ok ⟨[], none⟩])
    ∧ run_analysis envEmpty = ⟨[0, 10, 20, 40, 100], [], some [], 1⟩ :=
  ⟨⟨rfl, rfl, rfl, rfl, rfl⟩,
   C10_empty_video_list envEmpty ⟨true, [], false, false, true⟩ "UP" rfl rfl rfl rfl rfl⟩

end YT
